import Mathlib

/-!
Verification of the Flow Runner core of the WhyBecause repository.

The definitions below are a shallow embedding of
src/doc-flow-kit/FlowRunner.ts together with the data model from
src/doc-flow-kit/types.ts and src/doc-flow-kit/LLMService.ts.
Mutation of the private field currentStateId is modelled by explicit
state passing: each state-changing method returns the updated runner
next to its result, and a thrown JavaScript Error is modelled as an
Except.error carrying the exact message string the source constructs.
The JavaScript falsiness test used by the source (written there as a
bang before the field) holds for both null and the empty string, and
is embedded as such.
-/

namespace WhyBecause

deriving instance DecidableEq for Except

/-- A state node of a flow, as used by FlowRunner.ts: fields id, type,
label and the optional agentId reference (types.ts GraphNode extended
with agentId, the only fields the runner reads). -/
structure FlowStateNode where
  id : String
  type : String
  label : String
  agentId : Option String := none
  deriving Repr, DecidableEq

/-- A transition edge of a flow (types.ts GraphEdge): fields id, source,
target; the optional type tag and property bag are never read by the
runner and are omitted. -/
structure FlowTransitionEdge where
  id : String
  source : String
  target : String
  deriving Repr, DecidableEq

/-- The content payload of a flow document: nodes and edges lists. -/
structure FlowContent where
  nodes : List FlowStateNode
  edges : List FlowTransitionEdge
  deriving Repr, DecidableEq

/-- A flow document; the runner reads its title and content. -/
structure FlowDoc where
  title : String
  content : FlowContent
  deriving Repr, DecidableEq

/-- LLM settings (LLMService.ts interface LLMSettings). Temperature is a
rational number in the embedding; the runner never computes with it. -/
structure LLMSettings where
  provider : String
  model : Option String := none
  temperature : Option ℚ := none
  maxTokens : Option Nat := none
  apiKey : Option String := none
  apiEndpoint : Option String := none
  deriving Repr, DecidableEq

/-- Default settings (LLMService.ts DEFAULT_LLM_SETTINGS). -/
def DEFAULT_LLM_SETTINGS : LLMSettings :=
  { provider := "dummy", model := some "default",
    temperature := some (7 / 10), maxTokens := some 1000 }

/-- Project document content as read by the runner: only the optional
llmSettings field is consulted (project.content.llmSettings). -/
structure ProjectDoc where
  title : String
  llmSettings : Option LLMSettings := none
  deriving Repr, DecidableEq

/-- A stored document as the runner consumes it from the document store:
docType and title, plus the content.promptTemplate field, the only
content field FlowRunner.runCurrentState ever reads. -/
structure StoredDoc where
  docType : String
  title : String
  promptTemplate : String
  deriving Repr, DecidableEq

/-- Message of the Error thrown when no current state is set
(FlowRunner.ts lines 49 and 129). -/
def noCurrentStateMsg : String :=
  "No current state set. Call setStartState() first."

/-- Message of the Error thrown by setStartState and runCurrentState when
a state id is absent from the flow (lines 24 and 54). -/
def stateNotFoundMsg (stateId : String) : String :=
  "State with id=" ++ stateId ++ " not found in the flow."

/-- Message of the Error thrown by transitionTo for an unknown edge id
(line 134). -/
def transitionNotFoundMsg (edgeId : String) : String :=
  "Transition with id=" ++ edgeId ++ " not found in the flow."

/-- Message of the Error thrown by transitionTo when the found edge does
not start at the current state (line 139). -/
def illegalTransitionMsg (edgeId : String) : String :=
  "Transition " ++ edgeId ++ " is not available from the current state."

/-- JavaScript falsiness of the nullable string field currentStateId:
true for null and for the empty string. -/
def falsyId : Option String → Bool
  | none => true
  | some s => s == ""

/-- The runner: a bound flow, a bound project and the nullable current
state id (FlowRunner.ts fields). -/
structure FlowRunner where
  flow : FlowDoc
  project : ProjectDoc
  currentStateId : Option String
  deriving Repr, DecidableEq

/-- The constructor: binds flow and project, current state id starts
null. -/
def mkFlowRunner (flowDoc : FlowDoc) (project : ProjectDoc) : FlowRunner :=
  { flow := flowDoc, project := project, currentStateId := none }

/-- setStartState: look the id up among the nodes; throw
stateNotFoundMsg if absent, else set the current state id. -/
def FlowRunner.setStartState (r : FlowRunner) (stateId : String) :
    FlowRunner × Except String Unit :=
  match r.flow.content.nodes.find? (fun n => n.id == stateId) with
  | none => (r, Except.error (stateNotFoundMsg stateId))
  | some _ => ({ r with currentStateId := some stateId }, Except.ok ())

/-- getCurrentState: null when the current id is falsy, else the first
node with that id, or null when none matches. -/
def FlowRunner.getCurrentState (r : FlowRunner) : Option FlowStateNode :=
  match r.currentStateId with
  | none => none
  | some cur =>
      if cur == "" then none
      else r.flow.content.nodes.find? (fun n => n.id == cur)

/-- getCurrentStateId: the raw field. -/
def FlowRunner.getCurrentStateId (r : FlowRunner) : Option String :=
  r.currentStateId

/-- getAvailableTransitions: empty when the current id is falsy, else
the edges whose source equals the current id, in stored order. -/
def FlowRunner.getAvailableTransitions (r : FlowRunner) :
    List FlowTransitionEdge :=
  match r.currentStateId with
  | none => []
  | some cur =>
      if cur == "" then []
      else r.flow.content.edges.filter (fun e => e.source == cur)

/-- transitionTo: throw on falsy current id; look the edge up by id and
throw if absent; throw if its source is not the current id; else set the
current id to the target and return the label of the state found there,
or the sentinel when none is found. -/
def FlowRunner.transitionTo (r : FlowRunner) (edgeId : String) :
    FlowRunner × Except String String :=
  match r.currentStateId with
  | none => (r, Except.error noCurrentStateMsg)
  | some cur =>
      if cur == "" then (r, Except.error noCurrentStateMsg)
      else
        match r.flow.content.edges.find? (fun e => e.id == edgeId) with
        | none => (r, Except.error (transitionNotFoundMsg edgeId))
        | some edge =>
            if edge.source != cur then
              (r, Except.error (illegalTransitionMsg edgeId))
            else
              let r2 : FlowRunner := { r with currentStateId := some edge.target }
              match r2.getCurrentState with
              | some newState => (r2, Except.ok newState.label)
              | none => (r2, Except.ok "Unknown State")

/-- reset: clear the current state id. -/
def FlowRunner.reset (r : FlowRunner) : FlowRunner :=
  { r with currentStateId := none }

/-- Substring containment on character lists, the embedding of the
JavaScript String.prototype.includes test. -/
def hasSubstr : List Char → List Char → Bool
  | [], pat => pat.isEmpty
  | c :: rest, pat => pat.isPrefixOf (c :: rest) || hasSubstr rest pat

/-- String.prototype.includes. -/
def strIncludes (s pat : String) : Bool :=
  hasSubstr s.data pat.data

/-- One global, left-to-right, non-overlapping replacement sweep for a
non-empty pattern p0 :: pr, fuelled by the length of the scanned list
(the fallthrough row for exhausted fuel is unreachable when the fuel is
at least that length). This is the behaviour of the JavaScript call
processed.replace(new RegExp(pattern, g-flag), value) of
FlowRunner.processPromptTemplate for the literal patterns the runner
builds; regular-expression metacharacter readings of exotic keys are
outside the embedding. -/
def replaceAllAux (p0 : Char) (pr rep : List Char) : Nat → List Char → List Char
  | _, [] => []
  | 0, s => s
  | fuel + 1, c :: rest =>
    if (p0 :: pr).isPrefixOf (c :: rest) then
      rep ++ replaceAllAux p0 pr rep fuel (rest.drop pr.length)
    else
      c :: replaceAllAux p0 pr rep fuel rest

/-- Global replacement of every occurrence of pat in s by rep, the
embedding of s.replace(new RegExp(pat, g-flag), rep) for a literal
pattern. The runner never builds an empty pattern. -/
def jsReplaceAll (s pat rep : String) : String :=
  match pat.data with
  | [] => s
  | p0 :: pr => String.mk (replaceAllAux p0 pr rep.data s.data.length s.data)

/-- The substitution loop of processPromptTemplate: one global
replacement pass of the braced key by its value, per mapping entry, in
the stored order of the mapping (Object.entries order). -/
def substPasses (template : String) (vars : List (String × String)) : String :=
  vars.foldl
    (fun processed kv => jsReplaceAll processed ("\x7b" ++ kv.1 ++ "\x7d") kv.2)
    template

/-- The fixed fallback text substituted for the leftover input
placeholder (FlowRunner.ts line 110). -/
def inputFallback : String :=
  "Please analyze this flow state and provide insights."

/-- The literal input placeholder token. -/
def inputToken : String := "\x7binput\x7d"

/-- FlowRunner.processPromptTemplate: run every supplied substitution
pass, then, when the processed text still contains the literal input
placeholder, replace every occurrence of it by the fixed fallback. -/
def processPromptTemplate (template : String) (vars : List (String × String)) : String :=
  let processed := substPasses template vars
  if strIncludes processed inputToken then
    jsReplaceAll processed inputToken inputFallback
  else
    processed

/-- An observable call to one of the runner's external collaborators
during runCurrentState: a document-store fetch or a generative-text
invocation. -/
inductive CallEvent where
  | getDocument (docId : String)
  | callLLM (prompt : String)
  deriving Repr, DecidableEq

/-- The external collaborators of runCurrentState: the document store
(docFlowKit.getDocument, whose promise may resolve to a document or
null, or reject with an error message) and the generative-text call
obtained from getLLMService (whose promise resolves to a string or
rejects with an error message). -/
structure Env where
  getDocument : String → Except String (Option StoredDoc)
  callLLM : String → LLMSettings → Except String String

/-- The no-agent message of runCurrentState (line 59). -/
def noAgentMsg (state : FlowStateNode) : String :=
  "State \"" ++ state.label ++ "\" (" ++ state.type ++
    ") has no agent assigned, so nothing to run."

/-- The agent-not-found result string (line 67). -/
def agentNotFoundMsg (agentId : String) : String :=
  "Error: Agent with id=" ++ agentId ++ " not found."

/-- The wrong-document-type result string (line 71). -/
def notAnAgentMsg (agentId : String) : String :=
  "Error: Document with id=" ++ agentId ++ " is not an Agent."

/-- The catch-block result string wrapping an execution failure
(line 93). -/
def runErrorMsg (msg : String) : String :=
  "Error running agent: " ++ msg

/-- The composite success string (line 91). -/
def compositeMsg (agentTitle prompt response : String) : String :=
  "[Agent: " ++ agentTitle ++ "]\n\nPrompt:\n" ++ prompt ++
    "\n\nResponse:\n" ++ response

/-- FlowRunner.runCurrentState. The result triple is the runner after
the call (the method never assigns currentStateId), the thrown error or
returned string, and the list of external calls made, in order. Throws
on a falsy current id and on a vanished current state; every other
failure is an ordinary returned string. A falsy agentId field (absent
or empty) means no agent is assigned. -/
def FlowRunner.runCurrentState (r : FlowRunner) (env : Env) :
    FlowRunner × Except String String × List CallEvent :=
  match r.currentStateId with
  | none => (r, Except.error noCurrentStateMsg, [])
  | some cur =>
      if cur == "" then (r, Except.error noCurrentStateMsg, [])
      else
        match r.getCurrentState with
        | none => (r, Except.error (stateNotFoundMsg cur), [])
        | some state =>
            match state.agentId with
            | none => (r, Except.ok (noAgentMsg state), [])
            | some agentId =>
                if agentId == "" then (r, Except.ok (noAgentMsg state), [])
                else
                  match env.getDocument agentId with
                  | Except.error e =>
                      (r, Except.ok (runErrorMsg e), [CallEvent.getDocument agentId])
                  | Except.ok none =>
                      (r, Except.ok (agentNotFoundMsg agentId),
                        [CallEvent.getDocument agentId])
                  | Except.ok (some agentDoc) =>
                      if agentDoc.docType != "Agent" then
                        (r, Except.ok (notAnAgentMsg agentId),
                          [CallEvent.getDocument agentId])
                      else
                        let processedPrompt := processPromptTemplate agentDoc.promptTemplate
                          [("stateName", state.label), ("stateType", state.type),
                            ("flowName", r.flow.title)]
                        let llmSettings := r.project.llmSettings.getD DEFAULT_LLM_SETTINGS
                        match env.callLLM processedPrompt llmSettings with
                        | Except.error e =>
                            (r, Except.ok (runErrorMsg e),
                              [CallEvent.getDocument agentId,
                                CallEvent.callLLM processedPrompt])
                        | Except.ok response =>
                            (r, Except.ok (compositeMsg agentDoc.title processedPrompt response),
                              [CallEvent.getDocument agentId,
                                CallEvent.callLLM processedPrompt])


/-- The opening brace character. -/
def lbChar : Char := Char.ofNat 123

/-- The closing brace character. -/
def rbChar : Char := Char.ofNat 125

/-- A string containing neither brace character: the shape of an
ordinary placeholder name. -/
def braceFree (x : String) : Prop :=
  ∀ c ∈ x.data, c ≠ lbChar ∧ c ≠ rbChar

instance braceFreeDecidable (x : String) : Decidable (braceFree x) :=
  inferInstanceAs (Decidable (∀ c ∈ x.data, c ≠ lbChar ∧ c ≠ rbChar))

theorem hasSubstr_append_of_head_ne (q0 : Char) (qr : List Char) :
    ∀ (a b : List Char), (∀ c ∈ a, c ≠ q0) →
      hasSubstr (a ++ b) (q0 :: qr) = hasSubstr b (q0 :: qr) := by
  intro a
  induction a with
  | nil => intro b _; rfl
  | cons c a2 ih =>
      intro b hne
      have hc : c ≠ q0 := hne c (List.mem_cons_self c a2)
      have hpre : (q0 :: qr).isPrefixOf (c :: (a2 ++ b)) = false := by
        simp [List.isPrefixOf]
        intro h; exact absurd h.symm hc
      have step : hasSubstr ((c :: a2) ++ b) (q0 :: qr)
          = ((q0 :: qr).isPrefixOf (c :: (a2 ++ b)) || hasSubstr (a2 ++ b) (q0 :: qr)) := rfl
      rw [step, hpre, Bool.false_or]
      exact ih b (fun x hx => hne x (List.mem_cons_of_mem c hx))

theorem hasSubstr_append_right (q : List Char) :
    ∀ (a b : List Char), hasSubstr b q = true → hasSubstr (a ++ b) q = true := by
  intro a
  induction a with
  | nil => intro b h; exact h
  | cons c a2 ih =>
      intro b h
      have step : hasSubstr ((c :: a2) ++ b) q
          = (q.isPrefixOf (c :: (a2 ++ b)) || hasSubstr (a2 ++ b) q) := rfl
      rw [step, Bool.or_eq_true]
      exact Or.inr (ih b h)

theorem replaceAllAux_nil (p0 : Char) (pr rep : List Char) (fuel : Nat) :
    replaceAllAux p0 pr rep fuel [] = [] := by
  cases fuel <;> rfl

theorem replaceAllAux_cons_pos (p0 : Char) (pr rep : List Char) (fuel : Nat)
    (c : Char) (rest : List Char) (h : (p0 :: pr).isPrefixOf (c :: rest) = true) :
    replaceAllAux p0 pr rep (fuel + 1) (c :: rest)
      = rep ++ replaceAllAux p0 pr rep fuel (rest.drop pr.length) := by
  simp [replaceAllAux, h]

theorem replaceAllAux_cons_neg (p0 : Char) (pr rep : List Char) (fuel : Nat)
    (c : Char) (rest : List Char) (h : (p0 :: pr).isPrefixOf (c :: rest) = false) :
    replaceAllAux p0 pr rep (fuel + 1) (c :: rest)
      = c :: replaceAllAux p0 pr rep fuel rest := by
  simp [replaceAllAux, h]

theorem prefix_of_orig_of_prefix_of_replaced (p0 : Char) (pr r0 : _) (rr : List Char)
    (hr0 : r0 ∉ p0 :: pr) :
    ∀ (fuel : Nat) (s t : List Char), s.length ≤ fuel → t ≠ [] → t <:+ (p0 :: pr) →
      t.isPrefixOf (replaceAllAux p0 pr (r0 :: rr) fuel s) = true →
      t.isPrefixOf s = true := by
  intro fuel
  induction fuel with
  | zero =>
      intro s t hlen htne _ hpre
      have hs : s = [] := List.eq_nil_of_length_eq_zero (Nat.le_zero.mp hlen)
      subst hs
      rw [replaceAllAux_nil] at hpre
      cases t with
      | nil => exact absurd rfl htne
      | cons t0 t2 => simp [List.isPrefixOf] at hpre
  | succ fuel ih =>
      intro s t hlen htne htsuf hpre
      cases s with
      | nil =>
          rw [replaceAllAux_nil] at hpre
          cases t with
          | nil => exact absurd rfl htne
          | cons t0 t2 => simp [List.isPrefixOf] at hpre
      | cons c rest =>
          by_cases hm : (p0 :: pr).isPrefixOf (c :: rest) = true
          · rw [replaceAllAux_cons_pos _ _ _ _ _ _ hm] at hpre
            cases t with
            | nil => exact absurd rfl htne
            | cons t0 t2 =>
                have ht0 : t0 = r0 := by
                  simpa [List.isPrefixOf] using And.left (by
                    simpa [List.isPrefixOf, List.cons_append] using hpre)
                have ht0mem : t0 ∈ p0 :: pr := htsuf.subset (List.mem_cons_self t0 t2)
                rw [ht0] at ht0mem
                exact absurd ht0mem hr0
          · have hm' : (p0 :: pr).isPrefixOf (c :: rest) = false :=
              Bool.eq_false_iff.mpr hm
            rw [replaceAllAux_cons_neg _ _ _ _ _ _ hm'] at hpre
            cases t with
            | nil => exact absurd rfl htne
            | cons t0 t2 =>
                have hsplit : (t0 == c) = true ∧
                    t2.isPrefixOf (replaceAllAux p0 pr (r0 :: rr) fuel rest) = true := by
                  simpa [List.isPrefixOf, Bool.and_eq_true] using hpre
                have ht0 : t0 = c := by simpa using hsplit.1
                cases t2 with
                | nil => simp [List.isPrefixOf, ht0]
                | cons u0 u2 =>
                    have ht2suf : (u0 :: u2) <:+ (p0 :: pr) :=
                      List.IsSuffix.trans (List.suffix_cons t0 (u0 :: u2)) htsuf
                    have hrest : (u0 :: u2).isPrefixOf rest = true :=
                      ih rest (u0 :: u2) (Nat.le_of_succ_le_succ hlen)
                        (by simp) ht2suf hsplit.2
                    simp [List.isPrefixOf, ht0, hrest]

theorem noOccur_replaceAllAux (p0 : Char) (pr r0 : _) (rr : List Char)
    (hr0 : r0 ∉ p0 :: pr) (hp0 : p0 ∉ r0 :: rr) :
    ∀ (fuel : Nat) (s : List Char), s.length ≤ fuel →
      hasSubstr (replaceAllAux p0 pr (r0 :: rr) fuel s) (p0 :: pr) = false := by
  intro fuel
  induction fuel with
  | zero =>
      intro s hlen
      have hs : s = [] := List.eq_nil_of_length_eq_zero (Nat.le_zero.mp hlen)
      subst hs
      rw [replaceAllAux_nil]
      rfl
  | succ fuel ih =>
      intro s hlen
      cases s with
      | nil => rw [replaceAllAux_nil]; rfl
      | cons c rest =>
          by_cases hm : (p0 :: pr).isPrefixOf (c :: rest) = true
          · rw [replaceAllAux_cons_pos _ _ _ _ _ _ hm]
            rw [hasSubstr_append_of_head_ne p0 pr (r0 :: rr) _
              (fun x hx h => hp0 (h ▸ hx))]
            exact ih _ (Nat.le_trans (List.length_drop _ _ ▸ Nat.sub_le _ _)
              (Nat.le_of_succ_le_succ hlen))
          · have hm' : (p0 :: pr).isPrefixOf (c :: rest) = false :=
              Bool.eq_false_iff.mpr hm
            rw [replaceAllAux_cons_neg _ _ _ _ _ _ hm']
            have hrec := ih rest (Nat.le_of_succ_le_succ hlen)
            have hstep : hasSubstr (c :: replaceAllAux p0 pr (r0 :: rr) fuel rest) (p0 :: pr)
                = ((p0 :: pr).isPrefixOf (c :: replaceAllAux p0 pr (r0 :: rr) fuel rest)
                    || hasSubstr (replaceAllAux p0 pr (r0 :: rr) fuel rest) (p0 :: pr)) := rfl
            rw [hstep, hrec, Bool.or_false]
            by_cases hpp : (p0 :: pr).isPrefixOf
                (c :: replaceAllAux p0 pr (r0 :: rr) fuel rest) = true
            · have hpc : (p0 :: pr).isPrefixOf
                  (replaceAllAux p0 pr (r0 :: rr) (fuel + 1) (c :: rest)) = true := by
                rw [replaceAllAux_cons_neg _ _ _ _ _ _ hm']
                exact hpp
              have := prefix_of_orig_of_prefix_of_replaced p0 pr r0 rr hr0
                (fuel + 1) (c :: rest) (p0 :: pr) hlen (by simp)
                (List.suffix_refl _) hpc
              exact absurd this hm
            · exact Bool.eq_false_iff.mpr hpp

theorem prefPres_replaceAllAux (p0 : Char) (pr rep : List Char) :
    ∀ (fuel : Nat) (s u : List Char), s.length ≤ fuel →
      u.isPrefixOf s = true →
      (∀ j, j < u.length → (p0 :: pr).isPrefixOf (s.drop j) = false) →
      u.isPrefixOf (replaceAllAux p0 pr rep fuel s) = true := by
  intro fuel
  induction fuel with
  | zero =>
      intro s u hlen hu _
      have hs : s = [] := List.eq_nil_of_length_eq_zero (Nat.le_zero.mp hlen)
      subst hs
      rw [replaceAllAux_nil]
      exact hu
  | succ fuel ih =>
      intro s u hlen hu hnom
      cases u with
      | nil => simp [List.isPrefixOf]
      | cons u0 u2 =>
          cases s with
          | nil => simp [List.isPrefixOf] at hu
          | cons c rest =>
              have hm : (p0 :: pr).isPrefixOf (c :: rest) = false := by
                have := hnom 0 (by simp)
                simpa using this
              rw [replaceAllAux_cons_neg _ _ _ _ _ _ hm]
              have hsplit : (u0 == c) = true ∧ u2.isPrefixOf rest = true := by
                simpa [List.isPrefixOf, Bool.and_eq_true] using hu
              have hrec : u2.isPrefixOf (replaceAllAux p0 pr rep fuel rest) = true :=
                ih rest u2 (Nat.le_of_succ_le_succ hlen) hsplit.2
                  (fun j hj => by
                    have := hnom (j + 1) (by simpa using Nat.succ_lt_succ hj)
                    simpa using this)
              simp [List.isPrefixOf, hsplit.1, hrec]

theorem isPrefixOf_eq_true_iff (l1 l2 : List Char) :
    l1.isPrefixOf l2 = true ↔ l1 <+: l2 :=
  List.isPrefixOf_iff_prefix

theorem prefix_comparable (l1 l2 l3 : List Char) (h1 : l1 <+: l3)
    (h2 : l2 <+: l3) : l1 <+: l2 ∨ l2 <+: l1 :=
  List.prefix_or_prefix_of_prefix h1 h2

theorem bracedAppend_inj (k w : List Char) (rb : Char) (hwr : rb ∉ w)
    (h : (k ++ [rb]) <+: (w ++ [rb])) : k = w := by
  obtain ⟨t, ht⟩ := h
  have hlen : k.length + 1 + t.length = w.length + 1 := by
    have := congrArg List.length ht
    simp [List.length_append] at this
    omega
  rw [List.append_assoc] at ht
  rcases Nat.lt_or_ge k.length w.length with hlt | hge
  · exfalso
    have h1 : (k ++ ([rb] ++ t))[k.length]? = some rb := by
      rw [List.getElem?_append_right (Nat.le_refl _)]
      simp
    have h2 : (w ++ [rb])[k.length]? = some rb := by rw [← ht]; exact h1
    have h3 : (w ++ [rb])[k.length]? = w[k.length]? := by
      rw [List.getElem?_append, if_pos hlt]
    rw [h3] at h2
    exact hwr (List.getElem?_mem h2)
  · have heq : k.length = w.length := by omega
    obtain ⟨h1, _⟩ := List.append_inj ht heq
    exact h1

theorem braced_prefix_unique (k w : List Char) (lb rb : Char)
    (hkr : rb ∉ k) (hwr : rb ∉ w) (s : List Char)
    (hk : (lb :: (k ++ [rb])).isPrefixOf s = true)
    (hw : (lb :: (w ++ [rb])).isPrefixOf s = true) : k = w := by
  have hk' : (lb :: (k ++ [rb])) <+: s := (isPrefixOf_eq_true_iff _ _).mp hk
  have hw' : (lb :: (w ++ [rb])) <+: s := (isPrefixOf_eq_true_iff _ _).mp hw
  rcases prefix_comparable _ _ _ hk' hw' with hkw | hwk
  · have : (k ++ [rb]) <+: (w ++ [rb]) := by
      obtain ⟨t, ht⟩ := hkw
      exact ⟨t, by simpa using ht⟩
    exact bracedAppend_inj k w rb hwr this
  · have : (w ++ [rb]) <+: (k ++ [rb]) := by
      obtain ⟨t, ht⟩ := hwk
      exact ⟨t, by simpa using ht⟩
    exact (bracedAppend_inj w k rb hkr this).symm

theorem isPrefixOf_cons_exists {a : Char} {l v : List Char}
    (h : (a :: l).isPrefixOf v = true) : ∃ v2, v = a :: v2 ∧ l.isPrefixOf v2 = true := by
  cases v with
  | nil => simp [List.isPrefixOf] at h
  | cons x v2 =>
      have hsplit : (a == x) = true ∧ l.isPrefixOf v2 = true := by
        simpa [List.isPrefixOf, Bool.and_eq_true] using h
      exact ⟨v2, by simp [(by simpa using hsplit.1 : a = x)], hsplit.2⟩

theorem occPres_replaceAllAux (lb rb : Char) (k w rep : List Char)
    (hlbk : lb ∉ k) (hrbk : rb ∉ k) (hlbw : lb ∉ w) (hrbw : rb ∉ w)
    (hlbrb : lb ≠ rb) (hkw : k ≠ w) :
    ∀ (fuel : Nat) (s : List Char), s.length ≤ fuel →
      hasSubstr s (lb :: (w ++ [rb])) = true →
      hasSubstr (replaceAllAux lb (k ++ [rb]) rep fuel s) (lb :: (w ++ [rb])) = true := by
  intro fuel
  induction fuel with
  | zero =>
      intro s hlen hocc
      have hs : s = [] := List.eq_nil_of_length_eq_zero (Nat.le_zero.mp hlen)
      subst hs
      simp [hasSubstr] at hocc
  | succ fuel ih =>
      intro s hlen hocc
      cases s with
      | nil => simp [hasSubstr] at hocc
      | cons c rest =>
          have hocc2 : (lb :: (w ++ [rb])).isPrefixOf (c :: rest) = true ∨
              hasSubstr rest (lb :: (w ++ [rb])) = true := by
            have hstep : hasSubstr (c :: rest) (lb :: (w ++ [rb]))
                = ((lb :: (w ++ [rb])).isPrefixOf (c :: rest)
                    || hasSubstr rest (lb :: (w ++ [rb]))) := rfl
            rw [hstep] at hocc
            exact Bool.or_eq_true_iff.mp hocc
          by_cases hm : (lb :: (k ++ [rb])).isPrefixOf (c :: rest) = true
          · rcases hocc2 with hqp | hrest
            · exact absurd (braced_prefix_unique k w lb rb hrbk hrbw _ hm hqp) hkw
            · rw [replaceAllAux_cons_pos _ _ _ _ _ _ hm]
              obtain ⟨rest2', hc, hkpre⟩ := isPrefixOf_cons_exists hm
              have hceq : c = lb := by injection hc with h1 _
              have hrpre : (k ++ [rb]).isPrefixOf rest = true := by
                injection hc with _ h2
                rw [← h2] at hkpre
                exact hkpre
              obtain ⟨rest2, hrest2⟩ := (isPrefixOf_eq_true_iff _ _).mp hrpre
              have hdrop : rest.drop (k ++ [rb]).length = rest2 := by
                rw [← hrest2]
                exact List.drop_left _ _
              have hocc3 : hasSubstr rest2 (lb :: (w ++ [rb])) = true := by
                have := hasSubstr_append_of_head_ne lb (w ++ [rb]) (k ++ [rb]) rest2
                  (fun x hx => by
                    rcases List.mem_append.mp hx with hxk | hxr
                    · exact fun hxe => hlbk (hxe ▸ hxk)
                    · intro hxe
                      rw [List.mem_singleton] at hxr
                      exact hlbrb (hxe.symm.trans hxr))
                rw [hrest2] at this
                rw [this] at hrest
                exact hrest
              have hlen2 : rest2.length ≤ fuel := by
                have h1 : rest2.length ≤ rest.length := by
                  rw [← hrest2]
                  simp only [List.length_append, List.length_cons]
                  omega
                have h2 : rest.length ≤ fuel := Nat.le_of_succ_le_succ hlen
                omega
              rw [hdrop]
              exact hasSubstr_append_right _ rep _ (ih rest2 hlen2 hocc3)
          · have hm' : (lb :: (k ++ [rb])).isPrefixOf (c :: rest) = false :=
              Bool.eq_false_iff.mpr hm
            rw [replaceAllAux_cons_neg _ _ _ _ _ _ hm']
            rcases hocc2 with hqp | hrest
            · obtain ⟨v2, hc, hwpre⟩ := isPrefixOf_cons_exists hqp
              have hceq : c = lb := by injection hc with h1 _
              have hwrest : (w ++ [rb]).isPrefixOf rest = true := by
                injection hc with _ h2
                rw [← h2] at hwpre
                exact hwpre
              obtain ⟨rest3, hrest3⟩ := (isPrefixOf_eq_true_iff _ _).mp hwrest
              have hnom : ∀ j, j < (w ++ [rb]).length →
                  (lb :: (k ++ [rb])).isPrefixOf (rest.drop j) = false := by
                intro j hj
                by_contra hcon
                have hcon' : (lb :: (k ++ [rb])).isPrefixOf (rest.drop j) = true := by
                  cases hb : (lb :: (k ++ [rb])).isPrefixOf (rest.drop j) with
                  | true => rfl
                  | false => exact absurd hb hcon
                obtain ⟨v3, hv3, _⟩ := isPrefixOf_cons_exists hcon'
                have hhead : (rest.drop j).head? = some lb := by rw [hv3]; rfl
                rw [List.head?_drop] at hhead
                have hjq : rest[j]? = ((w ++ [rb]) ++ rest3)[j]? := by rw [hrest3]
                have hjlt : ((w ++ [rb]) ++ rest3)[j]? = (w ++ [rb])[j]? := by
                  rw [List.getElem?_append, if_pos hj]
                rw [hjq, hjlt] at hhead
                have hmem : lb ∈ w ++ [rb] := List.getElem?_mem hhead
                rcases List.mem_append.mp hmem with hx | hx
                · exact hlbw hx
                · rw [List.mem_singleton] at hx
                  exact hlbrb hx
              have hwrec : (w ++ [rb]).isPrefixOf
                  (replaceAllAux lb (k ++ [rb]) rep fuel rest) = true :=
                prefPres_replaceAllAux lb (k ++ [rb]) rep fuel rest (w ++ [rb])
                  (Nat.le_of_succ_le_succ hlen) hwrest hnom
              have hqrec : (lb :: (w ++ [rb])).isPrefixOf
                  (c :: replaceAllAux lb (k ++ [rb]) rep fuel rest) = true := by
                rw [hceq]
                simp [List.isPrefixOf, hwrec]
              have hstep : hasSubstr (c :: replaceAllAux lb (k ++ [rb]) rep fuel rest)
                  (lb :: (w ++ [rb]))
                  = ((lb :: (w ++ [rb])).isPrefixOf
                      (c :: replaceAllAux lb (k ++ [rb]) rep fuel rest)
                    || hasSubstr (replaceAllAux lb (k ++ [rb]) rep fuel rest)
                      (lb :: (w ++ [rb]))) := rfl
              rw [hstep, hqrec, Bool.true_or]
            · have hrec := ih rest (Nat.le_of_succ_le_succ hlen) hrest
              have hstep : hasSubstr (c :: replaceAllAux lb (k ++ [rb]) rep fuel rest)
                  (lb :: (w ++ [rb]))
                  = ((lb :: (w ++ [rb])).isPrefixOf
                      (c :: replaceAllAux lb (k ++ [rb]) rep fuel rest)
                    || hasSubstr (replaceAllAux lb (k ++ [rb]) rep fuel rest)
                      (lb :: (w ++ [rb]))) := rfl
              rw [hstep, hrec, Bool.or_true]

theorem jsReplaceAll_data (s pat rep : String) (p0 : Char) (pr : List Char)
    (h : pat.data = p0 :: pr) :
    (jsReplaceAll s pat rep).data
      = replaceAllAux p0 pr rep.data s.data.length s.data := by
  simp only [jsReplaceAll, h]

theorem bracedData (x : String) :
    ("\x7b" ++ x ++ "\x7d").data = lbChar :: (x.data ++ [rbChar]) := by
  rw [String.data_append, String.data_append]
  have h1 : ("\x7b" : String).data = [lbChar] := by decide
  have h2 : ("\x7d" : String).data = [rbChar] := by decide
  rw [h1, h2]
  simp

/-- After processPromptTemplate, no literal occurrence of the input
placeholder remains in the output: whenever the processed text still
contains it, the final pass replaces every occurrence, and the fixed
fallback text cannot recreate one. -/
theorem processPromptTemplate_no_input (template : String)
    (vars : List (String × String)) :
    strIncludes (processPromptTemplate template vars) inputToken = false := by
  unfold processPromptTemplate
  by_cases h : strIncludes (substPasses template vars) inputToken = true
  · rw [if_pos h]
    have hd : inputToken.data = lbChar :: ("input".data ++ [rbChar]) := by decide
    have hrep : inputFallback.data
        = 'P' :: ("lease analyze this flow state and provide insights.").data := by
      decide
    unfold strIncludes
    rw [jsReplaceAll_data _ _ _ _ _ hd, hd, hrep]
    exact noOccur_replaceAllAux _ _ _ _ (by decide) (by decide) _ _ (Nat.le_refl _)
  · rw [if_neg h]
    exact Bool.eq_false_iff.mpr h

/-- Occurrence preservation through one substitution pass whose key is
an ordinary placeholder name different from w: the pass cannot touch
any occurrence of the braced w placeholder. -/
theorem jsReplaceAll_keeps_other_placeholder (w key v t : String)
    (hw : braceFree w) (hk : braceFree key) (hkw : key ≠ w)
    (hocc : strIncludes t ("\x7b" ++ w ++ "\x7d") = true) :
    strIncludes (jsReplaceAll t ("\x7b" ++ key ++ "\x7d") v)
      ("\x7b" ++ w ++ "\x7d") = true := by
  unfold strIncludes at hocc ⊢
  rw [bracedData w] at hocc ⊢
  rw [jsReplaceAll_data _ _ _ _ _ (bracedData key)]
  refine occPres_replaceAllAux lbChar rbChar key.data w.data v.data
    (fun hmem => (hk _ hmem).1 rfl)
    (fun hmem => (hk _ hmem).2 rfl)
    (fun hmem => (hw _ hmem).1 rfl)
    (fun hmem => (hw _ hmem).2 rfl)
    (by decide)
    (fun hd => hkw (String.toList_inj.mp hd))
    _ _ (Nat.le_refl _) hocc

/-- Occurrence preservation through the whole substitution loop. -/
theorem substPasses_keeps_placeholder (w : String) (hw : braceFree w) :
    ∀ (vars : List (String × String)) (template : String),
      (∀ kv ∈ vars, braceFree kv.1 ∧ kv.1 ≠ w) →
      strIncludes template ("\x7b" ++ w ++ "\x7d") = true →
      strIncludes (substPasses template vars) ("\x7b" ++ w ++ "\x7d") = true := by
  intro vars
  induction vars with
  | nil => intro template _ hocc; exact hocc
  | cons kv rest ih =>
      intro template hkeys hocc
      have hstep : substPasses template (kv :: rest)
          = substPasses (jsReplaceAll template ("\x7b" ++ kv.1 ++ "\x7d") kv.2) rest := rfl
      rw [hstep]
      refine ih _ (fun x hx => hkeys x (List.mem_cons_of_mem kv hx)) ?_
      have hkv := hkeys kv (List.mem_cons_self kv rest)
      exact jsReplaceAll_keeps_other_placeholder w kv.1 kv.2 template
        hw hkv.1 hkv.2 hocc

/-- An unrecognized ordinary placeholder (a brace-free name that is not
a supplied key and not the input name) survives processPromptTemplate
verbatim: some occurrence of it is still present in the output. -/
theorem processPromptTemplate_keeps_unrecognized (w template : String)
    (vars : List (String × String))
    (hw : braceFree w) (hwi : w ≠ "input")
    (hkeys : ∀ kv ∈ vars, braceFree kv.1 ∧ kv.1 ≠ w)
    (hocc : strIncludes template ("\x7b" ++ w ++ "\x7d") = true) :
    strIncludes (processPromptTemplate template vars)
      ("\x7b" ++ w ++ "\x7d") = true := by
  unfold processPromptTemplate
  have hsub := substPasses_keeps_placeholder w hw vars template hkeys hocc
  by_cases h : strIncludes (substPasses template vars) inputToken = true
  · rw [if_pos h]
    have htok : (inputToken : String) = "\x7b" ++ "input" ++ "\x7d" := by decide
    rw [htok]
    refine jsReplaceAll_keeps_other_placeholder w "input" inputFallback _
      hw (by intro c hc; refine ⟨?_, ?_⟩ <;> (intro he; revert hc; rw [he]; decide))
      (fun hd => hwi hd.symm) hsub
  · rw [if_neg h]
    exact hsub

/-! Concrete fixtures used by witnesses and counterexamples. -/

/-- An agentless start node. -/
def nodeA : FlowStateNode :=
  { id := "A", type := "Start", label := "Start Here", agentId := none }

/-- A node bound to agent Ag1. -/
def nodeB : FlowStateNode :=
  { id := "B", type := "Normal", label := "Work", agentId := some "Ag1" }

/-- A node whose id is the empty string. -/
def nodeEmpty : FlowStateNode :=
  { id := "", type := "Normal", label := "Empty Id", agentId := none }

/-- A two-state flow with a forward and a backward transition. -/
def flowAB : FlowDoc :=
  { title := "Demo",
    content :=
      { nodes := [nodeA, nodeB],
        edges := [ { id := "t1", source := "A", target := "B" },
                   { id := "t2", source := "B", target := "A" } ] } }

/-- A flow whose transition t1 leads from A to the dangling id X, and
whose transition t2 departs from that dangling id. -/
def flowDangling : FlowDoc :=
  { title := "Dangling",
    content :=
      { nodes := [nodeA],
        edges := [ { id := "t1", source := "A", target := "X" },
                   { id := "t2", source := "X", target := "B" } ] } }

/-- A flow containing a state with the empty id, a transition into it, a
transition out of it, and an unrelated transition t. -/
def flowEmptyId : FlowDoc :=
  { title := "EmptyId",
    content :=
      { nodes := [nodeA, nodeEmpty],
        edges := [ { id := "tE", source := "A", target := "" },
                   { id := "e0", source := "", target := "A" },
                   { id := "t", source := "x", target := "y" } ] } }

/-- A project with no provider configuration. -/
def projP : ProjectDoc := { title := "P", llmSettings := none }

/-- An environment whose document store and generative-text client both
fail; used to witness statements that must not depend on the
collaborators. -/
def envFail : Env :=
  { getDocument := fun _ => Except.error "store down",
    callLLM := fun _ _ => Except.error "llm down" }

/-- C7: runCurrentState never changes the current position, whatever the
collaborators do, so a repeated invocation at the same position sees the
same runner and produces the same outcome; the two query operations are
pure functions of the runner in this embedding and change nothing. -/
theorem C7_runCurrentState_preserves_position (r : FlowRunner) (env : Env) :
    (r.runCurrentState env).1 = r ∧
    (r.runCurrentState env).1.runCurrentState env = r.runCurrentState env ∧
    (r.runCurrentState env).1.getCurrentStateId = r.getCurrentStateId ∧
    (r.runCurrentState env).1.getCurrentState = r.getCurrentState := by
  have h1 : (r.runCurrentState env).1 = r := by
    unfold FlowRunner.runCurrentState
    repeat' split <;> try rfl
    dsimp only
    split <;> rfl
  exact ⟨h1, by rw [h1], by rw [h1], by rw [h1]⟩

/-- C10: at a dangling position (a current id matching no state in the
flow, reachable via transitionTo) getCurrentStateId returns the
non-null id while getCurrentState returns null, so a null
getCurrentState result does not imply that no position is set. -/
theorem C10_dangling_queries (r : FlowRunner) (d : String)
    (hpos : r.currentStateId = some d)
    (hnode : ∀ n ∈ r.flow.content.nodes, n.id ≠ d) :
    r.getCurrentStateId = some d ∧ r.getCurrentState = none := by
  refine ⟨hpos, ?_⟩
  unfold FlowRunner.getCurrentState
  rw [hpos]
  dsimp only
  by_cases hd : (d == "") = true
  · rw [if_pos hd]
  · rw [if_neg hd, List.find?_eq_none]
    intro n hn
    simpa using hnode n hn

/-- Witness for C10: on the dangling flow, transitionTo t1 moves the
runner to the dangling id X; the hypotheses of the theorem hold there
and its conclusion evaluates as stated. -/
theorem C10_dangling_queries_witness :
    ((((mkFlowRunner flowDangling projP).setStartState "A").1.transitionTo
        "t1").1.currentStateId = some "X" ∧
      (∀ n ∈ flowDangling.content.nodes, n.id ≠ "X")) ∧
    ((((mkFlowRunner flowDangling projP).setStartState "A").1.transitionTo
        "t1").1.getCurrentStateId = some "X" ∧
      (((mkFlowRunner flowDangling projP).setStartState "A").1.transitionTo
        "t1").1.getCurrentState = none) :=
  ⟨⟨by decide, by decide⟩,
    C10_dangling_queries
      (((mkFlowRunner flowDangling projP).setStartState "A").1.transitionTo "t1").1
      "X" (by decide) (by decide)⟩

/-- C3: setStartState succeeds exactly on ids of states present in the
flow, after which getCurrentStateId returns that id; on an absent id it
fails with the state-not-found error and leaves the runner, in
particular its prior position, unchanged. -/
theorem C3_setStartState_spec (r : FlowRunner) (s : String) :
    ((∃ n ∈ r.flow.content.nodes, n.id = s) →
      (r.setStartState s).2 = Except.ok () ∧
      (r.setStartState s).1.getCurrentStateId = some s) ∧
    ((∀ n ∈ r.flow.content.nodes, n.id ≠ s) →
      r.setStartState s = (r, Except.error (stateNotFoundMsg s))) := by
  constructor
  · rintro ⟨n, hn, hns⟩
    cases hfind : r.flow.content.nodes.find? (fun x => x.id == s) with
    | none =>
        rw [List.find?_eq_none] at hfind
        exact absurd (by simpa using hns) (hfind n hn)
    | some node =>
        unfold FlowRunner.setStartState FlowRunner.getCurrentStateId
        rw [hfind]
        exact ⟨rfl, rfl⟩
  · intro hall
    cases hfind : r.flow.content.nodes.find? (fun x => x.id == s) with
    | none =>
        unfold FlowRunner.setStartState
        rw [hfind]
    | some node =>
        have hmem := List.mem_of_find?_eq_some hfind
        have hpred := List.find?_some hfind
        exact absurd (by simpa using hpred) (hall node hmem)

/-- Witness for C3: on the two-state demo flow, starting at the present
id B succeeds and is observable through getCurrentStateId, also when a
position was already set; the absent id Z fails with the
state-not-found error and changes nothing. -/
theorem C3_setStartState_spec_witness :
    ((∃ n ∈ flowAB.content.nodes, n.id = "B") ∧
      ((((mkFlowRunner flowAB projP).setStartState "A").1.setStartState "B").2
          = Except.ok () ∧
        ((((mkFlowRunner flowAB projP).setStartState "A").1.setStartState
            "B").1.getCurrentStateId = some "B"))) ∧
    ((∀ n ∈ flowAB.content.nodes, n.id ≠ "Z") ∧
      (((mkFlowRunner flowAB projP).setStartState "A").1.setStartState "Z"
          = (((mkFlowRunner flowAB projP).setStartState "A").1,
            Except.error (stateNotFoundMsg "Z")))) :=
  ⟨⟨by decide,
      (C3_setStartState_spec ((mkFlowRunner flowAB projP).setStartState "A").1
        "B").1 (by decide)⟩,
    ⟨by decide,
      (C3_setStartState_spec ((mkFlowRunner flowAB projP).setStartState "A").1
        "Z").2 (by decide)⟩⟩

/-- C8: at a state with no agent reference, runCurrentState returns the
no-agent message without failing and performs no document-store fetch
and no generative-text call, and the runner is unchanged. -/
theorem C8_agentless_state (r : FlowRunner) (env : Env) (state : FlowStateNode)
    (hstate : r.getCurrentState = some state)
    (hagent : state.agentId = none) :
    r.runCurrentState env = (r, Except.ok (noAgentMsg state), []) := by
  have hs := hstate
  unfold FlowRunner.getCurrentState at hs
  cases hpos : r.currentStateId with
  | none => rw [hpos] at hs; exact absurd hs (by simp)
  | some cur =>
      rw [hpos] at hs
      dsimp only at hs
      by_cases hc : (cur == "") = true
      · rw [if_pos hc] at hs
        exact absurd hs (by simp)
      · unfold FlowRunner.runCurrentState
        rw [hpos]
        dsimp only
        rw [if_neg hc]
        simp only [hstate, hagent]

/-- Witness for C8: at the agentless state A of the demo flow, with an
environment whose collaborators would both fail if consulted,
runCurrentState returns the no-agent message, performs no external
call, and leaves the runner unchanged. -/
theorem C8_agentless_state_witness :
    (((mkFlowRunner flowAB projP).setStartState "A").1.getCurrentState
        = some nodeA ∧
      nodeA.agentId = none) ∧
    ((mkFlowRunner flowAB projP).setStartState "A").1.runCurrentState envFail
      = (((mkFlowRunner flowAB projP).setStartState "A").1,
        Except.ok (noAgentMsg nodeA), []) :=
  ⟨⟨by decide, by decide⟩,
    C8_agentless_state ((mkFlowRunner flowAB projP).setStartState "A").1
      envFail nodeA (by decide) (by decide)⟩

/-- C4 (amended): getAvailableTransitions is the list of the flow's
edges whose source equals the current position, in stored order, when a
position is set and non-empty; it is empty when no position is set and
also when the current position is the empty string, which the runner's
falsiness test conflates with the unset position. It is a pure read. -/
theorem C4_getAvailableTransitions_spec (r : FlowRunner) :
    (r.currentStateId = none → r.getAvailableTransitions = []) ∧
    (r.currentStateId = some "" → r.getAvailableTransitions = []) ∧
    (∀ p, r.currentStateId = some p → p ≠ "" →
      r.getAvailableTransitions
        = r.flow.content.edges.filter (fun e => e.source == p)) := by
  refine ⟨?_, ?_, ?_⟩
  · intro hpos
    unfold FlowRunner.getAvailableTransitions
    rw [hpos]
  · intro hpos
    unfold FlowRunner.getAvailableTransitions
    rw [hpos]
    dsimp only
    rw [if_pos (by decide)]
  · intro p hpos hp
    unfold FlowRunner.getAvailableTransitions
    rw [hpos]
    dsimp only
    rw [if_neg (by simpa using hp)]

/-- Witness for C4: at position B of the demo flow the available
transitions are exactly the edges with source B in stored order, here
the single backward edge t2; a fresh runner has none. -/
theorem C4_getAvailableTransitions_spec_witness :
    ((mkFlowRunner flowAB projP).currentStateId = none ∧
      (mkFlowRunner flowAB projP).getAvailableTransitions = []) ∧
    ((((mkFlowRunner flowAB projP).setStartState "B").1.currentStateId
        = some "B" ∧ ("B" : String) ≠ "") ∧
      ((mkFlowRunner flowAB projP).setStartState "B").1.getAvailableTransitions
        = flowAB.content.edges.filter (fun e => e.source == "B")) :=
  ⟨⟨by decide,
      (C4_getAvailableTransitions_spec (mkFlowRunner flowAB projP)).1 (by decide)⟩,
    ⟨⟨by decide, by decide⟩,
      (C4_getAvailableTransitions_spec
        ((mkFlowRunner flowAB projP).setStartState "B").1).2.2 "B"
        (by decide) (by decide)⟩⟩

/-- Counterexample for C4 as stated: after transitioning to the empty
target id, the position is the set value some empty-string, yet
getAvailableTransitions returns the empty list although the flow has an
edge e0 whose source equals that position, so the result is not the
list of transitions whose source equals the current position. -/
theorem C4_empty_position_cex :
    ((((mkFlowRunner flowEmptyId projP).setStartState "A").1.transitionTo
        "tE").1.currentStateId = some "" ∧
      (((mkFlowRunner flowEmptyId projP).setStartState "A").1.transitionTo
        "tE").1.getAvailableTransitions = []) ∧
    flowEmptyId.content.edges.filter (fun e => e.source == "")
      = [{ id := "e0", source := "", target := "A" }] := by
  decide

/-- Helper: at a set, non-empty position the available transitions are
the edges filtered on source equality. -/
theorem getAvailableTransitions_some (r : FlowRunner) (p : String)
    (hpos : r.currentStateId = some p) (hp : p ≠ "") :
    r.getAvailableTransitions
      = r.flow.content.edges.filter (fun e => e.source == p) := by
  unfold FlowRunner.getAvailableTransitions
  rw [hpos]
  dsimp only
  rw [if_neg (by simpa using hp)]

/-- C1 (amended): transitionTo fails with the no-current-state error
when no position is set and also when the current position is the empty
string (which the runner's falsiness test treats as unset); at a set,
non-empty position it fails with the transition-not-found error when no
edge has the requested id, and with the illegal-transition error when
the found edge's source differs from the current position; every
failure leaves the runner, in particular its position, unchanged. -/
theorem C1_transitionTo_failures (r : FlowRunner) (edgeId : String) :
    (falsyId r.currentStateId = true →
      r.transitionTo edgeId = (r, Except.error noCurrentStateMsg)) ∧
    (∀ p, r.currentStateId = some p → p ≠ "" →
      r.flow.content.edges.find? (fun x => x.id == edgeId) = none →
      r.transitionTo edgeId = (r, Except.error (transitionNotFoundMsg edgeId))) ∧
    (∀ p e, r.currentStateId = some p → p ≠ "" →
      r.flow.content.edges.find? (fun x => x.id == edgeId) = some e →
      e.source ≠ p →
      r.transitionTo edgeId = (r, Except.error (illegalTransitionMsg edgeId))) ∧
    (∀ msg, (r.transitionTo edgeId).2 = Except.error msg →
      (r.transitionTo edgeId).1 = r) := by
  refine ⟨?_, ?_, ?_, ?_⟩
  · intro hf
    unfold FlowRunner.transitionTo
    cases hpos : r.currentStateId with
    | none => rfl
    | some p =>
        rw [hpos] at hf
        unfold falsyId at hf
        dsimp only
        rw [if_pos hf]
  · intro p hpos hp hfind
    unfold FlowRunner.transitionTo
    rw [hpos]
    dsimp only
    rw [if_neg (by simpa using hp), hfind]
  · intro p e hpos hp hfind hsrc
    unfold FlowRunner.transitionTo
    rw [hpos]
    dsimp only
    rw [if_neg (by simpa using hp), hfind]
    dsimp only
    rw [if_pos (by simpa using hsrc)]
  · intro msg herr
    unfold FlowRunner.transitionTo at herr ⊢
    cases hpos : r.currentStateId with
    | none => rfl
    | some p =>
        rw [hpos] at herr
        dsimp only at herr ⊢
        by_cases hc : (p == "") = true
        · rw [if_pos hc]
        · rw [if_neg hc] at herr ⊢
          cases hfind : r.flow.content.edges.find? (fun x => x.id == edgeId) with
          | none => rfl
          | some e =>
              try rw [hfind] at herr
              try dsimp only at herr ⊢
              try (dsimp only at herr)
              try (dsimp only)
              by_cases hsrc : (e.source != p) = true
              · rw [if_pos hsrc]
              · rw [if_neg hsrc] at herr ⊢
                exfalso
                try dsimp only at herr
                cases hgc : ({ r with currentStateId := some e.target } :
                    FlowRunner).getCurrentState with
                | none => rw [hgc] at herr; exact absurd herr (by simp)
                | some n => rw [hgc] at herr; exact absurd herr (by simp)

/-- Witness for C1: on the demo flow, a fresh runner fails the
no-position way; at position A an unknown edge id fails the
transition-not-found way, and the edge t2 borrowed from B fails the
illegal-transition way; each failure leaves the runner unchanged. -/
theorem C1_transitionTo_failures_witness :
    (falsyId (mkFlowRunner flowAB projP).currentStateId = true ∧
      (mkFlowRunner flowAB projP).transitionTo "t1"
        = (mkFlowRunner flowAB projP, Except.error noCurrentStateMsg)) ∧
    ((((mkFlowRunner flowAB projP).setStartState "A").1.currentStateId
        = some "A" ∧
      flowAB.content.edges.find? (fun x => x.id == "zz") = none) ∧
      ((mkFlowRunner flowAB projP).setStartState "A").1.transitionTo "zz"
        = (((mkFlowRunner flowAB projP).setStartState "A").1,
          Except.error (transitionNotFoundMsg "zz"))) ∧
    ((flowAB.content.edges.find? (fun x => x.id == "t2")
        = some { id := "t2", source := "B", target := "A" } ∧
      ({ id := "t2", source := "B", target := "A" } :
        FlowTransitionEdge).source ≠ "A") ∧
      ((mkFlowRunner flowAB projP).setStartState "A").1.transitionTo "t2"
        = (((mkFlowRunner flowAB projP).setStartState "A").1,
          Except.error (illegalTransitionMsg "t2"))) :=
  ⟨⟨by decide,
      (C1_transitionTo_failures (mkFlowRunner flowAB projP) "t1").1 (by decide)⟩,
    ⟨⟨by decide, by decide⟩,
      (C1_transitionTo_failures ((mkFlowRunner flowAB projP).setStartState
        "A").1 "zz").2.1 "A" (by decide) (by decide) (by decide)⟩,
    ⟨⟨by decide, by decide⟩,
      (C1_transitionTo_failures ((mkFlowRunner flowAB projP).setStartState
        "A").1 "t2").2.2.1 "A" { id := "t2", source := "B", target := "A" }
        (by decide) (by decide) (by decide) (by decide)⟩⟩

/-- Counterexample for C1 as stated: a runner can reach the set
position some empty-string (here via setStartState on a flow containing
a state with the empty id); the flow holds a transition t whose source
x differs from that current position, so the claim requires the
illegal-transition error, but transitionTo fails with the
no-current-state error instead. -/
theorem C1_empty_position_cex :
    (((mkFlowRunner flowEmptyId projP).setStartState "").1.currentStateId
        = some "" ∧
      flowEmptyId.content.edges.find? (fun x => x.id == "t")
        = some { id := "t", source := "x", target := "y" } ∧
      ({ id := "t", source := "x", target := "y" } :
        FlowTransitionEdge).source ≠ "") ∧
    ((mkFlowRunner flowEmptyId projP).setStartState "").1.transitionTo "t"
      = (((mkFlowRunner flowEmptyId projP).setStartState "").1,
        Except.error noCurrentStateMsg) ∧
    noCurrentStateMsg ≠ illegalTransitionMsg "t" := by
  decide

/-- C2 (amended): at a set, non-empty position p, a transition whose id
matches and whose source equals p succeeds: the position becomes the
edge's target even when that target matches no state of the flow, and
the returned value is the label of the first state matching the target,
or the sentinel Unknown State when no state matches it or when the
target is the empty string (which getCurrentState treats as unset). -/
theorem C2_transitionTo_success (r : FlowRunner) (edgeId p : String)
    (e : FlowTransitionEdge)
    (hpos : r.currentStateId = some p) (hp : p ≠ "")
    (hfind : r.flow.content.edges.find? (fun x => x.id == edgeId) = some e)
    (hsrc : e.source = p) :
    (r.transitionTo edgeId).1 = { r with currentStateId := some e.target } ∧
    (∀ n, e.target ≠ "" →
      r.flow.content.nodes.find? (fun x => x.id == e.target) = some n →
      (r.transitionTo edgeId).2 = Except.ok n.label) ∧
    ((∀ n ∈ r.flow.content.nodes, n.id ≠ e.target) →
      (r.transitionTo edgeId).2 = Except.ok "Unknown State") ∧
    (e.target = "" → (r.transitionTo edgeId).2 = Except.ok "Unknown State") := by
  have hred : r.transitionTo edgeId
      = ({ r with currentStateId := some e.target },
        match ({ r with currentStateId := some e.target } :
            FlowRunner).getCurrentState with
        | some newState => Except.ok newState.label
        | none => Except.ok "Unknown State") := by
    unfold FlowRunner.transitionTo
    rw [hpos]
    dsimp only
    rw [if_neg (by simpa using hp), hfind]
    dsimp only
    rw [if_neg (by simp [hsrc])]
    cases ({ r with currentStateId := some e.target } :
        FlowRunner).getCurrentState with
    | none => rfl
    | some n => rfl
  rw [hred]
  refine ⟨rfl, ?_, ?_, ?_⟩
  · intro n ht hfn
    have hgc : ({ r with currentStateId := some e.target } :
        FlowRunner).getCurrentState = some n := by
      unfold FlowRunner.getCurrentState
      dsimp only
      rw [if_neg (by simpa using ht)]
      exact hfn
    rw [hgc]
  · intro hall
    have hgc : ({ r with currentStateId := some e.target } :
        FlowRunner).getCurrentState = none := by
      unfold FlowRunner.getCurrentState
      dsimp only
      by_cases ht : (e.target == "") = true
      · rw [if_pos ht]
      · rw [if_neg ht, List.find?_eq_none]
        intro n hn
        simpa using hall n hn
    rw [hgc]
  · intro ht
    have hgc : ({ r with currentStateId := some e.target } :
        FlowRunner).getCurrentState = none := by
      unfold FlowRunner.getCurrentState
      dsimp only
      rw [if_pos (by simpa using ht)]
    rw [hgc]

/-- Witness for C2: from position A of the demo flow, t1 (source A)
succeeds, moves the position to B and returns the label of B; from
position A of the dangling flow, t1 succeeds, moves the position to the
stateless id X and returns the sentinel. -/
theorem C2_transitionTo_success_witness :
    ((((mkFlowRunner flowAB projP).setStartState "A").1.currentStateId
        = some "A" ∧
      flowAB.content.edges.find? (fun x => x.id == "t1")
        = some { id := "t1", source := "A", target := "B" }) ∧
      (((mkFlowRunner flowAB projP).setStartState "A").1.transitionTo "t1").1
        = { (mkFlowRunner flowAB projP).setStartState "A" |>.1 with
            currentStateId := some "B" } ∧
      (((mkFlowRunner flowAB projP).setStartState "A").1.transitionTo "t1").2
        = Except.ok "Work") ∧
    ((∀ n ∈ flowDangling.content.nodes, n.id ≠ "X") ∧
      (((mkFlowRunner flowDangling projP).setStartState "A").1.transitionTo
          "t1").1.currentStateId = some "X" ∧
      (((mkFlowRunner flowDangling projP).setStartState "A").1.transitionTo
          "t1").2 = Except.ok "Unknown State") := by
  refine ⟨⟨⟨by decide, by decide⟩, ?_, ?_⟩, ⟨by decide, ?_, ?_⟩⟩
  · exact (C2_transitionTo_success ((mkFlowRunner flowAB projP).setStartState
      "A").1 "t1" "A" { id := "t1", source := "A", target := "B" }
      (by decide) (by decide) (by decide) (by decide)).1
  · exact (C2_transitionTo_success ((mkFlowRunner flowAB projP).setStartState
      "A").1 "t1" "A" { id := "t1", source := "A", target := "B" }
      (by decide) (by decide) (by decide) (by decide)).2.1 nodeB
      (by decide) (by decide)
  · rw [(C2_transitionTo_success ((mkFlowRunner flowDangling projP).setStartState
      "A").1 "t1" "A" { id := "t1", source := "A", target := "X" }
      (by decide) (by decide) (by decide) (by decide)).1]
  · exact (C2_transitionTo_success ((mkFlowRunner flowDangling projP).setStartState
      "A").1 "t1" "A" { id := "t1", source := "A", target := "X" }
      (by decide) (by decide) (by decide) (by decide)).2.2.1 (by decide)

/-- Counterexample for C2 as stated: the flow with an empty-id state
holds the transition e0 whose source equals the current position (the
empty string, reached by setStartState on the empty-id state), so the
claim requires success with the position moving to the target A; the
code instead fails with the no-current-state error and moves nothing. -/
theorem C2_empty_position_cex :
    (((mkFlowRunner flowEmptyId projP).setStartState "").1.currentStateId
        = some "" ∧
      flowEmptyId.content.edges.find? (fun x => x.id == "e0")
        = some { id := "e0", source := "", target := "A" }) ∧
    ((mkFlowRunner flowEmptyId projP).setStartState "").1.transitionTo "e0"
      = (((mkFlowRunner flowEmptyId projP).setStartState "").1,
        Except.error noCurrentStateMsg) := by
  decide

/-- C6 (amended): at a dangling position (set, non-empty, matching no
state of the flow) getAvailableTransitions returns exactly the edges
whose source equals the dangling id, so it is empty precisely when no
edge departs from that id, and not in general. -/
theorem C6_dangling_available (r : FlowRunner) (d : String)
    (hpos : r.currentStateId = some d) (hd : d ≠ "")
    (hnode : ∀ n ∈ r.flow.content.nodes, n.id ≠ d) :
    r.getAvailableTransitions
      = r.flow.content.edges.filter (fun e => e.source == d) ∧
    (r.getAvailableTransitions = [] ↔
      ∀ e ∈ r.flow.content.edges, e.source ≠ d) := by
  have h1 := getAvailableTransitions_some r d hpos hd
  refine ⟨h1, ?_⟩
  rw [h1, List.filter_eq_nil_iff]
  constructor
  · intro h e he
    simpa using h e he
  · intro h e he
    simpa using h e he

/-- Witness for C6: after transitionTo t1 on the dangling flow the
position is the dangling id X; the available transitions are exactly
the filter result, and the emptiness equivalence holds there. -/
theorem C6_dangling_available_witness :
    ((((mkFlowRunner flowDangling projP).setStartState "A").1.transitionTo
        "t1").1.currentStateId = some "X" ∧
      (∀ n ∈ flowDangling.content.nodes, n.id ≠ "X")) ∧
    ((((mkFlowRunner flowDangling projP).setStartState "A").1.transitionTo
        "t1").1.getAvailableTransitions
      = flowDangling.content.edges.filter (fun e => e.source == "X") ∧
    ((((mkFlowRunner flowDangling projP).setStartState "A").1.transitionTo
        "t1").1.getAvailableTransitions = [] ↔
      ∀ e ∈ flowDangling.content.edges, e.source ≠ "X")) :=
  ⟨⟨by decide, by decide⟩,
    C6_dangling_available
      (((mkFlowRunner flowDangling projP).setStartState "A").1.transitionTo
        "t1").1 "X" (by decide) (by decide) (by decide)⟩

/-- Counterexample for C6 as stated: on the dangling flow, transitionTo
t1 sets the position to the dangling id X, yet getAvailableTransitions
returns the singleton t2 departing from X, not the empty list the claim
requires. -/
theorem C6_dangling_nonempty_cex :
    ((((mkFlowRunner flowDangling projP).setStartState "A").1.transitionTo
        "t1").1.currentStateId = some "X" ∧
      (∀ n ∈ flowDangling.content.nodes, n.id ≠ "X")) ∧
    (((mkFlowRunner flowDangling projP).setStartState "A").1.transitionTo
        "t1").1.getAvailableTransitions
      = [{ id := "t2", source := "X", target := "B" }] := by
  decide

/-- Counterexample for C5 as stated: with the mapping holding a before
b, the pass for a rewrites the template placeholder to the value of a,
which is itself the b placeholder; the later pass for b then rescans
the substituted text and rewrites that introduced placeholder to X, so
a placeholder occurrence introduced by a substituted value is
substituted by the substitution pass of another supplied key. -/
theorem C5_rescans_substituted_text_cex :
    jsReplaceAll "\x7ba\x7d" "\x7ba\x7d" "\x7bb\x7d" = "\x7bb\x7d" ∧
    processPromptTemplate "\x7ba\x7d" [("a", "\x7bb\x7d"), ("b", "X")] = "X" := by
  decide

/-- C5 (amended): the renderer applies exactly one global substitution
pass per supplied key, in the stored order of the mapping, and never
iterates to a fixpoint; each pass rescans the whole current text, so a
placeholder introduced by an earlier substituted value is substituted
by a later key's pass, while a placeholder naming an already-processed
key survives to the output. -/
theorem C5_sequential_passes (t : String) (vs ws : List (String × String)) :
    substPasses t (vs ++ ws) = substPasses (substPasses t vs) ws ∧
    processPromptTemplate "\x7ba\x7d" [("a", "\x7bb\x7d"), ("b", "X")] = "X" ∧
    processPromptTemplate "\x7bb\x7d" [("a", "X"), ("b", "\x7ba\x7d")]
      = "\x7ba\x7d" := by
  refine ⟨?_, by decide, by decide⟩
  unfold substPasses
  exact List.foldl_append _ _ vs ws

/-- C9: the three renderer behaviours. The worked example substitutes
both supplied names. The input placeholder never survives to the
output: the fallback pass replaces every remaining occurrence, shown by
the universal absence statement together with the concrete fallback
substitution. An unrecognized ordinary placeholder, like foo below, is
left verbatim: for every brace-free name that is neither a supplied key
nor the input name, an occurrence in the template survives to the
output, and the renderer is total, so no error is possible. -/
theorem C9_template_rendering :
    processPromptTemplate "Hello \x7bname\x7d, flow=\x7bflowName\x7d"
      [("name", "Start"), ("flowName", "Demo")] = "Hello Start, flow=Demo" ∧
    (∀ (template : String) (vars : List (String × String)),
      strIncludes (processPromptTemplate template vars) inputToken = false) ∧
    processPromptTemplate "Say: \x7binput\x7d" [("name", "Start")]
      = "Say: Please analyze this flow state and provide insights." ∧
    (∀ (w template : String) (vars : List (String × String)),
      braceFree w → w ≠ "input" →
      (∀ kv ∈ vars, braceFree kv.1 ∧ kv.1 ≠ w) →
      strIncludes template ("\x7b" ++ w ++ "\x7d") = true →
      strIncludes (processPromptTemplate template vars)
        ("\x7b" ++ w ++ "\x7d") = true) ∧
    processPromptTemplate "Hello \x7bname\x7d, x=\x7bfoo\x7d"
      [("name", "Start"), ("flowName", "Demo")] = "Hello Start, x=\x7bfoo\x7d" := by
  refine ⟨by decide, processPromptTemplate_no_input, by decide,
    processPromptTemplate_keeps_unrecognized, by decide⟩

/-- Witness for C9: the unrecognized-placeholder conjunct applied at
the name foo with the supplied keys name and flowName: the hypotheses
hold by evaluation and the occurrence of the foo placeholder survives
processPromptTemplate. -/
theorem C9_template_rendering_witness :
    (braceFree "foo" ∧ ("foo" : String) ≠ "input" ∧
      (∀ kv ∈ [("name", "Start"), ("flowName", "Demo")],
        braceFree kv.1 ∧ kv.1 ≠ "foo") ∧
      strIncludes "Hello \x7bname\x7d, x=\x7bfoo\x7d"
        ("\x7b" ++ "foo" ++ "\x7d") = true) ∧
    strIncludes (processPromptTemplate "Hello \x7bname\x7d, x=\x7bfoo\x7d"
        [("name", "Start"), ("flowName", "Demo")])
      ("\x7b" ++ "foo" ++ "\x7d") = true :=
  ⟨⟨by decide, by decide, by decide, by decide⟩,
    (C9_template_rendering).2.2.2.1 "foo" "Hello \x7bname\x7d, x=\x7bfoo\x7d"
      [("name", "Start"), ("flowName", "Demo")]
      (by decide) (by decide) (by decide) (by decide)⟩

end WhyBecause
